import Mathlib

/-!
Shallow embedding of the embedding-analysis core of the VE_Learning
repository (src/lib/dimensionality-reduction.ts and the similarity
utilities), together with theorems settling the frozen claims about it.

JavaScript numbers are modelled as real numbers; a JS function that can
`throw` is modelled as returning `Except String`; the third-party
numerical libraries (ml-pca / ml-matrix, tsne-js) are modelled as oracle
parameters (a library call that throws is an oracle returning `none`,
which the source catches and replaces by its fallback layout); calls to
`Math.random()` are modelled by an explicit stream `ℕ → ℝ`.
-/

namespace VELearning

noncomputable section

/-- A JS `number[]` vector. -/
abbrev Vec := List ℝ

/-- `EmbeddingData` from `src/types/embeddings.ts`. -/
structure EmbeddingData where
  id : String
  sentence : String
  embedding : Vec
  timestamp : String

/-- The reduction method of `VisualizationConfig.method` (`'pca' | 'tsne'`). -/
inductive RMethod where
  | pca
  | tsne
deriving DecidableEq

/-- The target dimensionality `2 | 3` of `VisualizationConfig.dimensions`. -/
inductive Dim where
  | two
  | three
deriving DecidableEq

/-- The numeric value of the target dimensionality. -/
def Dim.nat : Dim → ℕ
  | .two => 2
  | .three => 3

/-- `VisualizationConfig` from `src/types/embeddings.ts` (the fields the
analysis core reads; `perplexity` is optional there). -/
structure VisualizationConfig where
  method : RMethod
  dimensions : Dim
  perplexity : Option ℝ
  showLabels : Bool
  colorScheme : String

/-- One formatted reduced point, as built inside `reduceDimensions`:
`{ x, y, z (3D only), label, id }`. -/
structure Point where
  x : ℝ
  y : ℝ
  z : Option ℝ
  label : String
  id : String

/-- One cluster, as built inside `performSimpleClustering`. -/
structure Cluster where
  centroid : List ℝ
  sentences : List String
  averageSimilarity : ℝ
  label : String

/-- `ProcessedEmbeddings`: the result bundle of `reduceDimensions`. -/
structure ProcessedEmbeddings where
  original : List EmbeddingData
  reduced : List Point
  clusters : List Cluster
  method : RMethod
  variance : Option (List ℝ)

/-- JS `array.map((a, i) => f i a)` starting at index `n`. -/
def mapIdxFrom (f : ℕ → α → β) : ℕ → List α → List β
  | _, [] => []
  | n, a :: as => f n a :: mapIdxFrom f (n + 1) as

/-- JS `x || y` on numbers read out of an array: `x` is replaced by `y`
when the index is out of bounds (`undefined`) or the value is `0`. -/
def jsOr (x : Option ℝ) (y : ℝ) : ℝ :=
  match x with
  | none => y
  | some v => if v = 0 then y else v

/-- `reduce((sum, val) => sum + val * val, 0)`: the sum of squares of a
vector. -/
def sumSq (a : Vec) : ℝ := a.foldl (fun s v => s + v * v) 0

/-- The Euclidean magnitude `Math.sqrt(sumSq a)` of a vector. -/
def magnitude (a : Vec) : ℝ := Real.sqrt (sumSq a)

/-- `reduce((sum, val, i) => sum + val * b[i], 0)` for equal-length
vectors: the dot product. -/
def dotFold (a b : Vec) : ℝ := (a.zip b).foldl (fun s p => s + p.1 * p.2) 0

/-- `cosineSimilarity` from the similarity utilities: throws on a length
mismatch, returns `0` when either magnitude is exactly `0`, and
`dot / (‖a‖ * ‖b‖)` otherwise. -/
def cosineSimilarity (a b : Vec) : Except String ℝ :=
  if a.length ≠ b.length then .error "Vectors must have the same length"
  else if magnitude a = 0 ∨ magnitude b = 0 then .ok 0
  else .ok (dotFold a b / (magnitude a * magnitude b))

/-- The pure cosine-similarity value (the value `cosineSimilarity`
returns once the length guard has passed). -/
def simVal (a b : Vec) : ℝ :=
  if magnitude a = 0 ∨ magnitude b = 0 then 0
  else dotFold a b / (magnitude a * magnitude b)

/-- The non-null result shape of `findMostSimilar`:
`{ sentence, similarity }`. -/
structure SimilarPick where
  sentence : String
  similarity : ℝ

/-- The `forEach` scan of `findMostSimilar`, carrying the running
`maxSimilarity` (initially `-1`) and `mostSimilar` (initially `""`); a
throw inside `cosineSimilarity` propagates. -/
def mostSimilarGo (ts : String) (te : Vec) :
    List EmbeddingData → ℝ → String → Except String (Option SimilarPick)
  | [], maxSim, best => .ok (if maxSim > -1 then some ⟨best, maxSim⟩ else none)
  | c :: rest, maxSim, best =>
    if c.sentence ≠ ts then
      match cosineSimilarity te c.embedding with
      | .error e => .error e
      | .ok sim =>
        if sim > maxSim then mostSimilarGo ts te rest sim c.sentence
        else mostSimilarGo ts te rest maxSim best
    else mostSimilarGo ts te rest maxSim best

/-- `findMostSimilar(targetSentence, targetEmbedding, candidates)`. -/
def findMostSimilar (ts : String) (te : Vec) (candidates : List EmbeddingData) :
    Except String (Option SimilarPick) :=
  if candidates.length = 0 then .ok none
  else mostSimilarGo ts te candidates (-1) ""

/-- One step of the scan of `findMostSimilar`, as a pure fold over the
accumulator `(maxSimilarity, mostSimilar)` (used to characterise
`mostSimilarGo` when no candidate makes `cosineSimilarity` throw). -/
def simStep (ts : String) (te : Vec) (acc : ℝ × String) (c : EmbeddingData) : ℝ × String :=
  if c.sentence ≠ ts then
    (if simVal te c.embedding > acc.1 then (simVal te c.embedding, c.sentence) else acc)
  else acc

/-- The oracle modelling the ml-pca library call
(`new Matrix` / `new PCA` / `predict` / `getExplainedVariance`): `none`
models a throw, `some (reduced, variance)` a successful run. -/
abbrev PCALib := List Vec → Option (List Vec × List ℝ)

/-- `performPCA(embeddings, dimensions)`. -/
def performPCA (lib : PCALib) (rand : ℕ → ℝ) (embeddings : List Vec) (dims : Dim) :
    List Vec × List ℝ :=
  if embeddings.length < 2 then
    (mapIdxFrom (fun i _ => ([(i : ℝ), 0, 0]).take dims.nat) 0 embeddings,
     List.replicate dims.nat 0.5)
  else
    match lib embeddings with
    | some rv => (rv.1, rv.2.take dims.nat)
    | none =>
      (mapIdxFrom (fun i emb =>
          ([jsOr (emb.get? 0) (i : ℝ),
            jsOr (emb.get? 1) (rand (2 * i) - 0.5),
            jsOr (emb.get? 2) (rand (2 * i + 1) - 0.5)]).take dims.nat) 0 embeddings,
       List.replicate dims.nat 0.3)

/-- The configuration record passed to the `new TSNE(...)` constructor. -/
structure TSNEConfig where
  dim : ℕ
  perplexity : ℝ
  earlyExaggeration : ℝ
  learningRate : ℝ
  nIter : ℕ
  metric : String

/-- The oracle modelling the tsne-js iterative run (`init` / `step` /
`getSolution`): `none` models a throw, `some solution` a completed run. -/
abbrev TSNELib := TSNEConfig → List Vec → Option (List Vec)

/-- The outcome of `performTSNE`: the resolved points, together with the
constructor configuration when the iterative path was entered (`none`
when the small-input circular layout was returned instead). -/
structure TSNERun where
  points : List Vec
  invoked : Option TSNEConfig

/-- `performTSNE(embeddings, dimensions, perplexity)`: fewer than 4
vectors resolve to a unit-circle layout without touching the algorithm;
otherwise a `TSNEConfig` with the clamped perplexity is built and the
iterative run (oracle) is performed, a throw being caught and replaced
by a radius-2 circular fallback. -/
def performTSNE (lib : TSNELib) (rand : ℕ → ℝ) (embeddings : List Vec)
    (dims : Dim) (perplexity : ℝ) : TSNERun :=
  if embeddings.length < 4 then
    { points := mapIdxFrom (fun i _ =>
        (([Real.cos (((i : ℝ) / embeddings.length) * 2 * Real.pi) * 1,
           Real.sin (((i : ℝ) / embeddings.length) * 2 * Real.pi) * 1] ++
          (if dims = Dim.three then [rand i - 0.5] else [])).take dims.nat))
        0 embeddings,
      invoked := none }
  else
    let cfg : TSNEConfig :=
      { dim := dims.nat,
        perplexity := min perplexity (((embeddings.length - 1) / 3 : ℕ) : ℝ),
        earlyExaggeration := 4.0,
        learningRate := 100.0,
        nIter := 500,
        metric := "euclidean" }
    match lib cfg embeddings with
    | some sol => { points := sol, invoked := some cfg }
    | none =>
      { points := mapIdxFrom (fun i _ =>
          (([Real.cos (((i : ℝ) / embeddings.length) * 2 * Real.pi) * 2,
             Real.sin (((i : ℝ) / embeddings.length) * 2 * Real.pi) * 2] ++
            (if dims = Dim.three
             then [Real.sin ((((i : ℝ) / embeddings.length) * 2 * Real.pi) * 2)]
             else [])).take dims.nat))
          0 embeddings,
        invoked := some cfg }

/-- The quadrant index assigned to a point by the `if / else if` chain of
`performSimpleClustering` (0 Top-Right, 1 Top-Left, 2 Bottom-Right,
3 Bottom-Left); ties go to the `≥` side on both axes. -/
def quadIndex (mx my : ℝ) (p : Point) : Fin 4 :=
  if p.x ≥ mx ∧ p.y ≥ my then 0
  else if p.x < mx ∧ p.y ≥ my then 1
  else if p.x ≥ mx ∧ p.y < my then 2
  else 3

/-- The four quadrants, in the order the source declares them. -/
def quadrantNames : List (Fin 4 × String) :=
  [(0, "Top-Right"), (1, "Top-Left"), (2, "Bottom-Right"), (3, "Bottom-Left")]

/-- Emission of one cluster per quadrant: a quadrant with at least one
point yields a cluster with the mean coordinates as 2-entry centroid,
the member labels, the fixed `averageSimilarity` 0.5 and the quadrant
name; an empty quadrant yields nothing. -/
def emitCluster (mx my : ℝ) (pts : List Point) (q : Fin 4 × String) : Option Cluster :=
  let qpts := pts.filter fun p => quadIndex mx my p = q.1
  if 0 < qpts.length then
    some { centroid := [(qpts.map Point.x).sum / (qpts.length : ℝ),
                        (qpts.map Point.y).sum / (qpts.length : ℝ)],
           sentences := qpts.map Point.label,
           averageSimilarity := 0.5,
           label := q.2 }
  else none

/-- `performSimpleClustering(reducedData)`: fewer than 2 points give no
clusters; otherwise the x and y medians (upper median: sorted value at
index `⌊n / 2⌋`) split the points into four quadrants and each non-empty
quadrant becomes one cluster. -/
def performSimpleClustering (pts : List Point) : List Cluster :=
  if pts.length < 2 then []
  else
    let xs := List.insertionSort (· ≤ ·) (pts.map Point.x)
    let ys := List.insertionSort (· ≤ ·) (pts.map Point.y)
    let mx := xs.getD (pts.length / 2) 0
    let my := ys.getD (pts.length / 2) 0
    quadrantNames.filterMap (emitCluster mx my pts)

/-- `reduceDimensions(embeddingData, config)`: validates (non-empty batch,
non-empty vectors), dispatches to the configured reducer, formats the
reduced coordinates and clusters them. -/
def reduceDimensions (pcaLib : PCALib) (tsneLib : TSNELib)
    (randP randT : ℕ → ℝ) (data : List EmbeddingData)
    (config : VisualizationConfig) : Except String ProcessedEmbeddings :=
  let embeddings := data.map EmbeddingData.embedding
  if embeddings.length = 0 then
    .error "No embeddings provided for dimensionality reduction"
  else if embeddings.any List.isEmpty then
    .error "Invalid embeddings detected"
  else
    let rv : List Vec × Option (List ℝ) :=
      match config.method with
      | .pca =>
        let r := performPCA pcaLib randP embeddings config.dimensions
        (r.1, some r.2)
      | .tsne =>
        let perp : ℝ :=
          match config.perplexity with
          | some p =>
            if p = 0 then min 30 (((embeddings.length - 1) / 3 : ℕ) : ℝ) else p
          | none => min 30 (((embeddings.length - 1) / 3 : ℕ) : ℝ)
        ((performTSNE tsneLib randT embeddings config.dimensions perp).points, none)
    let formatted : List Point := (rv.1.zip data).map fun pr =>
      { x := pr.1.getD 0 0,
        y := pr.1.getD 1 0,
        z := if config.dimensions = Dim.three then pr.1.get? 2 else none,
        label := pr.2.sentence,
        id := pr.2.id }
    .ok { original := data,
          reduced := formatted,
          clusters := performSimpleClustering formatted,
          method := config.method,
          variance := rv.2 }

/-- A trivial PCA oracle: the library call throws. -/
def pcaLib0 : PCALib := fun _ => none

/-- A trivial t-SNE oracle: the library call throws. -/
def tsneLib0 : TSNELib := fun _ _ => none

/-- A fixed random stream. -/
def rand0 : ℕ → ℝ := fun _ => 0

/-- A PCA oracle returning a fixed successful 3D reduction of a 2-vector
batch. -/
def pcaLibC3 : PCALib := fun _ => some ([[0, 0, 0], [1, 1, 1]], [0.1, 0.2, 0.3])

/-- A concrete 2-record batch. -/
def dataC3 : List EmbeddingData :=
  [⟨"1", "s1", [5, 5, 5], ""⟩, ⟨"2", "s2", [6, 6, 6], ""⟩]

/-- A concrete configuration requesting PCA with target dimensionality 3. -/
def cfgC3 : VisualizationConfig := ⟨RMethod.pca, Dim.three, none, true, "default"⟩

/-- The formatted point at the origin produced by the `pcaLibC3` run. -/
def ptA : Point := ⟨0, 0, some 0, "s1", "1"⟩

/-- The formatted point at `(1, 1, 1)` produced by the `pcaLibC3` run. -/
def ptB : Point := ⟨1, 1, some 1, "s2", "2"⟩

/-- The Top-Right cluster of the `pcaLibC3` run. -/
def clTR : Cluster := ⟨[1, 1], ["s2"], 0.5, "Top-Right"⟩

/-- The Bottom-Left cluster of the `pcaLibC3` run. -/
def clBL : Cluster := ⟨[0, 0], ["s1"], 0.5, "Bottom-Left"⟩

/-- The full result bundle of the `pcaLibC3` run. -/
def procC3 : ProcessedEmbeddings :=
  ⟨dataC3, [ptA, ptB], [clTR, clBL], RMethod.pca, some [0.1, 0.2, 0.3]⟩

/-! ## Helper lemmas -/

theorem mapIdxFrom_length (f : ℕ → α → β) (n : ℕ) (l : List α) :
    (mapIdxFrom f n l).length = l.length := by
  induction l generalizing n with
  | nil => rfl
  | cons a as ih => simp [mapIdxFrom, ih]

theorem mapIdxFrom_const (g : ℕ → β) (n : ℕ) (l : List α) :
    mapIdxFrom (fun i _ => g i) n l = (List.range l.length).map fun i => g (n + i) := by
  induction l generalizing n with
  | nil => rfl
  | cons a as ih =>
    simp only [mapIdxFrom, List.length_cons, List.range_succ_eq_map, List.map_cons,
      Nat.add_zero, List.map_map, ih]
    congr 1
    apply List.map_congr_left
    intro i _
    simp only [Function.comp_apply]
    congr 1
    omega


theorem reduceDimensions_ok_of_valid (pl : PCALib) (tl : TSNELib) (rp rt : ℕ → ℝ)
    (data : List EmbeddingData) (config : VisualizationConfig)
    (h1 : data ≠ []) (h2 : ∀ d ∈ data, d.embedding ≠ []) :
    ∃ r, reduceDimensions pl tl rp rt data config = Except.ok r := by
  have hA : ¬ ((data.map EmbeddingData.embedding).length = 0) := by
    simp only [List.length_map, List.length_eq_zero]
    exact h1
  have hB : ¬ ((data.map EmbeddingData.embedding).any List.isEmpty = true) := by
    simp only [List.any_eq_true, List.mem_map, not_exists, not_and]
    rintro e ⟨d, hd, rfl⟩ hemp
    exact h2 d hd (List.isEmpty_iff.mp hemp)
  simp only [reduceDimensions, if_neg hA, if_neg hB]
  exact ⟨_, rfl⟩

theorem cosineSimilarity_eq_ok (a b : Vec) (h : a.length = b.length) :
    cosineSimilarity a b = .ok (simVal a b) := by
  unfold cosineSimilarity simVal
  rw [if_neg (by simp [h])]
  by_cases hm : magnitude a = 0 ∨ magnitude b = 0
  · rw [if_pos hm, if_pos hm]
  · rw [if_neg hm, if_neg hm]

theorem mostSimilarGo_eq_ok (ts : String) (te : Vec) :
    ∀ (l : List EmbeddingData) (m : ℝ) (b : String),
      (∀ c ∈ l, c.embedding.length = te.length) →
      mostSimilarGo ts te l m b =
        .ok (if (l.foldl (simStep ts te) (m, b)).1 > -1
             then some ⟨(l.foldl (simStep ts te) (m, b)).2,
                        (l.foldl (simStep ts te) (m, b)).1⟩
             else none) := by
  intro l
  induction l with
  | nil => intro m b _; rfl
  | cons c rest ih =>
    intro m b hlen
    have hrest : ∀ x ∈ rest, x.embedding.length = te.length := fun x hx =>
      hlen x (List.mem_cons_of_mem _ hx)
    have hcl : cosineSimilarity te c.embedding = .ok (simVal te c.embedding) :=
      cosineSimilarity_eq_ok te c.embedding (hlen c (List.mem_cons_self _ _)).symm
    by_cases hc : c.sentence ≠ ts
    · by_cases hgt : simVal te c.embedding > m
      · simp only [mostSimilarGo, if_pos hc, hcl, List.foldl_cons, simStep,
          if_pos hgt, ih _ _ hrest]
      · simp only [mostSimilarGo, if_pos hc, hcl, List.foldl_cons, simStep,
          if_neg hgt, ih _ _ hrest]
    · simp only [mostSimilarGo, if_neg hc, List.foldl_cons, simStep,
        ih _ _ hrest]

theorem foldl_simStep_spec (ts : String) (te : Vec) :
    ∀ (l : List EmbeddingData) (m : ℝ) (b : String),
      m ≤ (l.foldl (simStep ts te) (m, b)).1 ∧
      (((l.foldl (simStep ts te) (m, b)).1 = m ∧
        (l.foldl (simStep ts te) (m, b)).2 = b) ∨
        ∃ c ∈ l, c.sentence ≠ ts ∧
          simVal te c.embedding = (l.foldl (simStep ts te) (m, b)).1 ∧
          c.sentence = (l.foldl (simStep ts te) (m, b)).2) ∧
      ∀ c ∈ l, c.sentence ≠ ts →
        simVal te c.embedding ≤ (l.foldl (simStep ts te) (m, b)).1 := by
  intro l
  induction l with
  | nil =>
    intro m b
    refine ⟨le_refl _, Or.inl ⟨rfl, rfl⟩, ?_⟩
    intro c hc
    exact absurd hc (List.not_mem_nil c)
  | cons c rest ih =>
    intro m b
    by_cases hc : c.sentence ≠ ts
    · by_cases hgt : simVal te c.embedding > m
      · have hstep : simStep ts te (m, b) c = (simVal te c.embedding, c.sentence) := by
          simp [simStep, hc, hgt]
        obtain ⟨h1, h2, h3⟩ := ih (simVal te c.embedding) c.sentence
        rw [List.foldl_cons, hstep]
        refine ⟨le_trans (le_of_lt hgt) h1, ?_, ?_⟩
        · rcases h2 with ⟨he1, he2⟩ | ⟨x, hx, hxne, hxv, hxs⟩
          · exact Or.inr ⟨c, List.mem_cons_self _ _, hc, he1.symm, he2.symm⟩
          · exact Or.inr ⟨x, List.mem_cons_of_mem _ hx, hxne, hxv, hxs⟩
        · intro x hx hxne
          rcases List.mem_cons.mp hx with rfl | hx'
          · exact h1
          · exact h3 x hx' hxne
      · have hstep : simStep ts te (m, b) c = (m, b) := by
          simp [simStep, hc, hgt]
        obtain ⟨h1, h2, h3⟩ := ih m b
        rw [List.foldl_cons, hstep]
        refine ⟨h1, ?_, ?_⟩
        · rcases h2 with h2' | ⟨x, hx, hxne, hxv, hxs⟩
          · exact Or.inl h2'
          · exact Or.inr ⟨x, List.mem_cons_of_mem _ hx, hxne, hxv, hxs⟩
        · intro x hx hxne
          rcases List.mem_cons.mp hx with rfl | hx'
          · exact le_trans (not_lt.mp hgt) h1
          · exact h3 x hx' hxne
    · have hstep : simStep ts te (m, b) c = (m, b) := by
        simp [simStep, hc]
      obtain ⟨h1, h2, h3⟩ := ih m b
      rw [List.foldl_cons, hstep]
      refine ⟨h1, ?_, ?_⟩
      · rcases h2 with h2' | ⟨x, hx, hxne, hxv, hxs⟩
        · exact Or.inl h2'
        · exact Or.inr ⟨x, List.mem_cons_of_mem _ hx, hxne, hxv, hxs⟩
      · intro x hx hxne
        rcases List.mem_cons.mp hx with rfl | hx'
        · exact absurd hxne (by simpa using hc)
        · exact h3 x hx' hxne

theorem performSimpleClustering_eq (pts : List Point) (h : ¬ (pts.length < 2)) :
    performSimpleClustering pts =
      quadrantNames.filterMap (emitCluster
        ((List.insertionSort (· ≤ ·) (pts.map Point.x)).getD (pts.length / 2) 0)
        ((List.insertionSort (· ≤ ·) (pts.map Point.y)).getD (pts.length / 2) 0)
        pts) := by
  simp only [performSimpleClustering, if_neg h]

theorem quadIndex_cases (mx my : ℝ) (p : Point) :
    quadIndex mx my p = 0 ∨ quadIndex mx my p = 1 ∨
    quadIndex mx my p = 2 ∨ quadIndex mx my p = 3 := by
  have h : ∀ j : Fin 4, j = 0 ∨ j = 1 ∨ j = 2 ∨ j = 3 := by decide
  exact h _

theorem quadFilter_perm (mx my : ℝ) (pts : List Point) :
    List.Perm
      ((pts.filter fun p => quadIndex mx my p = 0) ++
       (pts.filter fun p => quadIndex mx my p = 1) ++
       (pts.filter fun p => quadIndex mx my p = 2) ++
       (pts.filter fun p => quadIndex mx my p = 3)) pts := by
  induction pts with
  | nil => simp
  | cons p rest ih =>
    rcases quadIndex_cases mx my p with h | h | h | h
    · have f0 : (p :: rest).filter (fun q => quadIndex mx my q = 0) =
          p :: rest.filter (fun q => quadIndex mx my q = 0) := by
        simp [List.filter_cons, h]
      have f1 : (p :: rest).filter (fun q => quadIndex mx my q = 1) =
          rest.filter (fun q => quadIndex mx my q = 1) := by
        simp [List.filter_cons, h]
      have f2 : (p :: rest).filter (fun q => quadIndex mx my q = 2) =
          rest.filter (fun q => quadIndex mx my q = 2) := by
        simp [List.filter_cons, h]
      have f3 : (p :: rest).filter (fun q => quadIndex mx my q = 3) =
          rest.filter (fun q => quadIndex mx my q = 3) := by
        simp [List.filter_cons, h]
      rw [f0, f1, f2, f3]
      simpa using ih.cons p
    · have f0 : (p :: rest).filter (fun q => quadIndex mx my q = 0) =
          rest.filter (fun q => quadIndex mx my q = 0) := by
        simp [List.filter_cons, h]
      have f1 : (p :: rest).filter (fun q => quadIndex mx my q = 1) =
          p :: rest.filter (fun q => quadIndex mx my q = 1) := by
        simp [List.filter_cons, h]
      have f2 : (p :: rest).filter (fun q => quadIndex mx my q = 2) =
          rest.filter (fun q => quadIndex mx my q = 2) := by
        simp [List.filter_cons, h]
      have f3 : (p :: rest).filter (fun q => quadIndex mx my q = 3) =
          rest.filter (fun q => quadIndex mx my q = 3) := by
        simp [List.filter_cons, h]
      rw [f0, f1, f2, f3]
      refine List.Perm.trans ?_ (ih.cons p)
      simp only [List.append_assoc, List.cons_append]
      exact List.perm_middle
    · have f0 : (p :: rest).filter (fun q => quadIndex mx my q = 0) =
          rest.filter (fun q => quadIndex mx my q = 0) := by
        simp [List.filter_cons, h]
      have f1 : (p :: rest).filter (fun q => quadIndex mx my q = 1) =
          rest.filter (fun q => quadIndex mx my q = 1) := by
        simp [List.filter_cons, h]
      have f2 : (p :: rest).filter (fun q => quadIndex mx my q = 2) =
          p :: rest.filter (fun q => quadIndex mx my q = 2) := by
        simp [List.filter_cons, h]
      have f3 : (p :: rest).filter (fun q => quadIndex mx my q = 3) =
          rest.filter (fun q => quadIndex mx my q = 3) := by
        simp [List.filter_cons, h]
      rw [f0, f1, f2, f3]
      refine List.Perm.trans ?_ (ih.cons p)
      simp only [List.append_assoc, List.cons_append]
      exact (List.perm_middle.append_left _).trans List.perm_middle
    · have f0 : (p :: rest).filter (fun q => quadIndex mx my q = 0) =
          rest.filter (fun q => quadIndex mx my q = 0) := by
        simp [List.filter_cons, h]
      have f1 : (p :: rest).filter (fun q => quadIndex mx my q = 1) =
          rest.filter (fun q => quadIndex mx my q = 1) := by
        simp [List.filter_cons, h]
      have f2 : (p :: rest).filter (fun q => quadIndex mx my q = 2) =
          rest.filter (fun q => quadIndex mx my q = 2) := by
        simp [List.filter_cons, h]
      have f3 : (p :: rest).filter (fun q => quadIndex mx my q = 3) =
          p :: rest.filter (fun q => quadIndex mx my q = 3) := by
        simp [List.filter_cons, h]
      rw [f0, f1, f2, f3]
      refine List.Perm.trans ?_ (ih.cons p)
      simp only [List.append_assoc, List.cons_append]
      exact (((List.perm_middle.append_left _).trans
        List.perm_middle).append_left _).trans List.perm_middle

theorem emit_filterMap_flatten (mx my : ℝ) (pts : List Point)
    (names : List (Fin 4 × String)) :
    ((names.filterMap (emitCluster mx my pts)).map Cluster.sentences).flatten =
      (names.map fun q =>
        (pts.filter fun p => quadIndex mx my p = q.1).map Point.label).flatten := by
  induction names with
  | nil => rfl
  | cons q names ih =>
    by_cases hq : 0 < (pts.filter fun p => quadIndex mx my p = q.1).length
    · have hsome : emitCluster mx my pts q = some
          { centroid := [((pts.filter fun p => quadIndex mx my p = q.1).map Point.x).sum /
                ((pts.filter fun p => quadIndex mx my p = q.1).length : ℝ),
              ((pts.filter fun p => quadIndex mx my p = q.1).map Point.y).sum /
                ((pts.filter fun p => quadIndex mx my p = q.1).length : ℝ)],
            sentences := (pts.filter fun p => quadIndex mx my p = q.1).map Point.label,
            averageSimilarity := 0.5,
            label := q.2 } := by
        simp [emitCluster, hq]
      rw [List.filterMap_cons_some hsome]
      simp only [List.map_cons, List.flatten_cons, ih]
    · have hnil : (pts.filter fun p => quadIndex mx my p = q.1) = [] :=
        List.length_eq_zero.mp (Nat.eq_zero_of_not_pos hq)
      rw [List.filterMap_cons_none (by simp [emitCluster, hq])]
      simp only [List.map_cons, List.flatten_cons, ih, hnil, List.map_nil,
        List.nil_append]

theorem filterMap_length_all_isSome (f : α → Option β) :
    ∀ l : List α, (∀ a ∈ l, (f a).isSome) → (l.filterMap f).length = l.length := by
  intro l
  induction l with
  | nil => intro _; rfl
  | cons a as ih =>
    intro h
    obtain ⟨b, hb⟩ := Option.isSome_iff_exists.mp (h a (List.mem_cons_self _ _))
    rw [List.filterMap_cons_some hb, List.length_cons, List.length_cons,
      ih fun x hx => h x (List.mem_cons_of_mem _ hx)]

theorem centroid_length_two (pts : List Point) :
    ∀ cl ∈ performSimpleClustering pts, cl.centroid.length = 2 := by
  intro cl hcl
  by_cases h : pts.length < 2
  · simp only [performSimpleClustering, if_pos h] at hcl
    exact absurd hcl (List.not_mem_nil cl)
  · rw [performSimpleClustering_eq pts h] at hcl
    obtain ⟨q, _, hemit⟩ := List.mem_filterMap.mp hcl
    simp only [emitCluster] at hemit
    split at hemit
    · rw [← Option.some.inj hemit]
      rfl
    · exact absurd hemit (by simp)

theorem clusterEval_pair :
    performSimpleClustering [ptA, ptB] = [clTR, clBL] := by
  rw [performSimpleClustering_eq _ (by simp)]
  have hmapx : ([ptA, ptB] : List Point).map Point.x = [0, 1] := by
    simp [ptA, ptB]
  have hmapy : ([ptA, ptB] : List Point).map Point.y = [0, 1] := by
    simp [ptA, ptB]
  have hsort : List.insertionSort (· ≤ ·) ([(0 : ℝ), 1]) = [0, 1] := by
    norm_num [List.insertionSort, List.orderedInsert]
  have hlen2 : ([ptA, ptB] : List Point).length = 2 := rfl
  rw [hmapx, hmapy, hsort, hlen2]
  have hmed : ([(0 : ℝ), 1]).getD (2 / 2) 0 = 1 := rfl
  rw [hmed]
  have hqA : quadIndex 1 1 ptA = 3 := by
    norm_num [quadIndex, ptA]
  have hqB : quadIndex 1 1 ptB = 0 := by
    norm_num [quadIndex, ptB]
  have f0 : ([ptA, ptB] : List Point).filter
      (fun p => quadIndex 1 1 p = (0 : Fin 4)) = [ptB] := by
    simp [List.filter_cons, hqA, hqB]
  have f1 : ([ptA, ptB] : List Point).filter
      (fun p => quadIndex 1 1 p = (1 : Fin 4)) = [] := by
    simp [List.filter_cons, hqA, hqB]
  have f2 : ([ptA, ptB] : List Point).filter
      (fun p => quadIndex 1 1 p = (2 : Fin 4)) = [] := by
    simp [List.filter_cons, hqA, hqB]
  have f3 : ([ptA, ptB] : List Point).filter
      (fun p => quadIndex 1 1 p = (3 : Fin 4)) = [ptA] := by
    simp [List.filter_cons, hqA, hqB]
  have e0 : emitCluster 1 1 [ptA, ptB] (0, "Top-Right") = some clTR := by
    simp only [emitCluster, f0]
    norm_num [ptB, clTR]
  have e1 : emitCluster 1 1 [ptA, ptB] (1, "Top-Left") = none := by
    simp [emitCluster, f1]
  have e2 : emitCluster 1 1 [ptA, ptB] (2, "Bottom-Right") = none := by
    simp [emitCluster, f2]
  have e3 : emitCluster 1 1 [ptA, ptB] (3, "Bottom-Left") = some clBL := by
    simp only [emitCluster, f3]
    norm_num [ptA, clBL]
  show List.filterMap (emitCluster 1 1 [ptA, ptB]) quadrantNames = [clTR, clBL]
  rw [quadrantNames, List.filterMap_cons_some e0, List.filterMap_cons_none e1,
    List.filterMap_cons_none e2, List.filterMap_cons_some e3,
    List.filterMap_nil]

theorem reduceDimensionsC3_eval :
    reduceDimensions pcaLibC3 tsneLib0 rand0 rand0 dataC3 cfgC3 =
      Except.ok procC3 := by
  have hcl := clusterEval_pair
  simp only [reduceDimensions, dataC3, cfgC3, pcaLibC3, performPCA, procC3,
    List.map_cons, List.map_nil, List.length_cons, List.length_nil,
    List.any_cons, List.any_nil, List.zip_cons_cons, List.zip_nil_right,
    ptA, ptB] at hcl ⊢
  norm_num
  rw [← hcl]
  norm_num [Dim.nat]

/-! ## Claims -/

/-- C1 (counterexample): on a non-empty batch whose vectors are non-empty
but of different lengths (`[1, 2]` and `[3]`), `reduceDimensions` does
not fail: it returns a successful result, contradicting the claim that a
length mismatch is always propagated as a validation failure. -/
theorem c1_counterexample :
    (reduceDimensions pcaLib0 tsneLib0 rand0 rand0
      [⟨"1", "a", [1, 2], ""⟩, ⟨"2", "b", [3], ""⟩]
      ⟨RMethod.pca, Dim.two, none, true, "default"⟩).isOk = true := by
  obtain ⟨r, hr⟩ := reduceDimensions_ok_of_valid pcaLib0 tsneLib0 rand0 rand0
    [⟨"1", "a", [1, 2], ""⟩, ⟨"2", "b", [3], ""⟩]
    ⟨RMethod.pca, Dim.two, none, true, "default"⟩ (by simp) (by simp)
  rw [hr]
  rfl

/-- C1 (amended): validation in `reduceDimensions` rejects only an empty
batch or an empty vector; a non-empty batch of non-empty vectors with
mismatched lengths passes validation and the pipeline returns a
successful result instead of an `InvalidInput` error. -/
theorem c1_amended_mismatch_no_failure (pl : PCALib) (tl : TSNELib)
    (rp rt : ℕ → ℝ) (data : List EmbeddingData) (config : VisualizationConfig)
    (h1 : data ≠ []) (h2 : ∀ d ∈ data, d.embedding ≠ [])
    (_h3 : ∃ d1 ∈ data, ∃ d2 ∈ data, d1.embedding.length ≠ d2.embedding.length) :
    ∃ r, reduceDimensions pl tl rp rt data config = Except.ok r :=
  reduceDimensions_ok_of_valid pl tl rp rt data config h1 h2

/-- C1 (witness): the amended theorem applied to the concrete mismatched
batch of the counterexample. -/
theorem c1_witness :
    (([⟨"1", "a", [1, 2], ""⟩, ⟨"2", "b", [3], ""⟩] : List EmbeddingData) ≠ [] ∧
      (∀ d ∈ ([⟨"1", "a", [1, 2], ""⟩, ⟨"2", "b", [3], ""⟩] : List EmbeddingData),
        d.embedding ≠ []) ∧
      (∃ d1 ∈ ([⟨"1", "a", [1, 2], ""⟩, ⟨"2", "b", [3], ""⟩] : List EmbeddingData),
        ∃ d2 ∈ ([⟨"1", "a", [1, 2], ""⟩, ⟨"2", "b", [3], ""⟩] : List EmbeddingData),
        d1.embedding.length ≠ d2.embedding.length)) ∧
    ∃ r, reduceDimensions pcaLib0 tsneLib0 rand0 rand0
      [⟨"1", "a", [1, 2], ""⟩, ⟨"2", "b", [3], ""⟩]
      ⟨RMethod.tsne, Dim.two, none, true, "default"⟩ = Except.ok r := by
  refine ⟨⟨by simp, by simp, ?_⟩, ?_⟩
  · exact ⟨⟨"1", "a", [1, 2], ""⟩, by simp, ⟨"2", "b", [3], ""⟩, by simp, by simp⟩
  · exact c1_amended_mismatch_no_failure pcaLib0 tsneLib0 rand0 rand0 _ _
      (by simp) (by simp)
      ⟨⟨"1", "a", [1, 2], ""⟩, by simp, ⟨"2", "b", [3], ""⟩, by simp, by simp⟩

/-- C4 (confirmed): for at least 4 input vectors and any configured
perplexity `p`, `performTSNE` enters the iterative path and the
configuration it passes to the algorithm carries the effective
perplexity `min p ⌊(N − 1) / 3⌋` (the remaining fields being the fixed
constants of the source). -/
theorem c4_effective_perplexity (lib : TSNELib) (rand : ℕ → ℝ) (e : List Vec)
    (d : Dim) (p : ℝ) (h : 4 ≤ e.length) :
    (performTSNE lib rand e d p).invoked =
      some { dim := d.nat,
             perplexity := min p (((e.length - 1) / 3 : ℕ) : ℝ),
             earlyExaggeration := 4.0,
             learningRate := 100.0,
             nIter := 500,
             metric := "euclidean" } := by
  have h4 : ¬ (e.length < 4) := Nat.not_lt.mpr h
  simp only [performTSNE, if_neg h4]
  cases lib
      { dim := d.nat,
        perplexity := min p (((e.length - 1) / 3 : ℕ) : ℝ),
        earlyExaggeration := 4.0,
        learningRate := 100.0,
        nIter := 500,
        metric := "euclidean" } e with
  | none => rfl
  | some sol => rfl

/-- C4 (witness): with 5 vectors and configured perplexity 30, the
effective perplexity is clamped to `min 30 ⌊4 / 3⌋ = 1`. -/
theorem c4_witness :
    4 ≤ ([[1], [2], [3], [4], [5]] : List Vec).length ∧
    (performTSNE tsneLib0 rand0 [[1], [2], [3], [4], [5]] Dim.two 30).invoked.map
      TSNEConfig.perplexity = some 1 := by
  refine ⟨by simp, ?_⟩
  rw [c4_effective_perplexity tsneLib0 rand0 [[1], [2], [3], [4], [5]] Dim.two 30
    (by simp)]
  norm_num [Option.map_some', min_eq_right]

/-- C6 (confirmed): with fewer than 4 input vectors and target
dimensionality 2, `performTSNE` never invokes the iterative algorithm
and resolves with the vectors placed on the unit circle at angles
`2·π·i / N`. -/
theorem c6_small_n_circle (lib : TSNELib) (rand : ℕ → ℝ) (e : List Vec) (p : ℝ)
    (h : e.length < 4) :
    (performTSNE lib rand e Dim.two p).invoked = none ∧
    (performTSNE lib rand e Dim.two p).points =
      (List.range e.length).map fun i : ℕ =>
        [Real.cos (2 * Real.pi * i / e.length),
         Real.sin (2 * Real.pi * i / e.length)] := by
  constructor
  · simp [performTSNE, if_pos h]
  · simp only [performTSNE, if_pos h]
    have hne : ¬ (Dim.two = Dim.three) := by decide
    simp only [if_neg hne, List.append_nil, mul_one, Dim.nat]
    rw [mapIdxFrom_const
      (fun i => ([Real.cos (((i : ℝ) / e.length) * 2 * Real.pi),
        Real.sin (((i : ℝ) / e.length) * 2 * Real.pi)]).take 2) 0 e]
    apply List.map_congr_left
    intro i _
    simp only [Nat.zero_add, List.take_succ_cons, List.take_zero]
    have harg : ((i : ℝ) / e.length) * 2 * Real.pi = 2 * Real.pi * i / e.length := by
      ring
    rw [harg]

/-- C6 (witness): the small-input circle layout at the concrete batch of
3 vectors. -/
theorem c6_witness :
    ([[1], [2], [3]] : List Vec).length < 4 ∧
    ((performTSNE tsneLib0 rand0 [[1], [2], [3]] Dim.two 30).invoked = none ∧
     (performTSNE tsneLib0 rand0 [[1], [2], [3]] Dim.two 30).points =
       (List.range ([[1], [2], [3]] : List Vec).length).map fun i : ℕ =>
         [Real.cos (2 * Real.pi * i / ([[1], [2], [3]] : List Vec).length),
          Real.sin (2 * Real.pi * i / ([[1], [2], [3]] : List Vec).length)]) :=
  ⟨by simp, c6_small_n_circle tsneLib0 rand0 [[1], [2], [3]] 30 (by simp)⟩

/-- C7 (confirmed): on a single input vector, `performPCA` returns
exactly one reduced point at the origin (truncated to the target
dimensionality) and a variance array with one entry of 0.5 per target
dimension. -/
theorem c7_pca_single_point (lib : PCALib) (rand : ℕ → ℝ) (e : Vec) (d : Dim) :
    performPCA lib rand [e] d =
      ([List.replicate d.nat 0], List.replicate d.nat 0.5) := by
  cases d <;>
    simp [performPCA, mapIdxFrom, Dim.nat, List.replicate, List.take_succ_cons]

/-- C8 (confirmed): for equal-length vectors, if either Euclidean
magnitude is exactly 0, `cosineSimilarity` returns exactly 0 — neither
an error nor an undefined value. -/
theorem c8_cosine_zero_magnitude (a b : Vec) (hlen : a.length = b.length)
    (h : magnitude a = 0 ∨ magnitude b = 0) :
    cosineSimilarity a b = .ok 0 := by
  unfold cosineSimilarity
  rw [if_neg (by simp [hlen]), if_pos h]

/-- C8 (witness): the zero vector against `[3, 4]`. -/
theorem c8_witness :
    (([0, 0] : Vec).length = ([3, 4] : Vec).length ∧ magnitude [0, 0] = 0) ∧
    cosineSimilarity [0, 0] [3, 4] = .ok 0 := by
  have hmag : magnitude ([0, 0] : Vec) = 0 := by
    norm_num [magnitude, sumSq]
  exact ⟨⟨rfl, hmag⟩, c8_cosine_zero_magnitude _ _ rfl (Or.inl hmag)⟩

/-- C9 (confirmed): `performPCA` is total and returns exactly one reduced
point per input vector on every path (small-input placeholder,
successful library run — which, per the matrix contract, preserves the
row count — and catch fallback). -/
theorem c9_pca_total_length (lib : PCALib) (rand : ℕ → ℝ) (e : List Vec) (d : Dim)
    (hlib : ∀ e' r v, lib e' = some (r, v) → r.length = e'.length) :
    (performPCA lib rand e d).1.length = e.length := by
  unfold performPCA
  split
  · exact mapIdxFrom_length _ _ _
  · cases hle : lib e with
    | none => simp [hle, mapIdxFrom_length]
    | some rv => simpa [hle] using hlib e rv.1 rv.2 (by rw [hle])

/-- C9 (witness): the totality theorem at a concrete 3-vector batch with
the throwing library oracle. -/
theorem c9_witness :
    (∀ e' r v, pcaLib0 e' = some (r, v) → r.length = e'.length) ∧
    (performPCA pcaLib0 rand0 [[1, 2], [3, 4], [5, 6]] Dim.two).1.length =
      ([[1, 2], [3, 4], [5, 6]] : List Vec).length :=
  ⟨fun e' r v h => by simp [pcaLib0] at h,
   c9_pca_total_length pcaLib0 rand0 [[1, 2], [3, 4], [5, 6]] Dim.two
     (fun e' r v h => by simp [pcaLib0] at h)⟩

/-- C2 (counterexample): a single candidate whose label differs from the
target but whose cosine similarity to it is exactly −1 (vector `[-1, 0]`
against target `[1, 0]`) makes `findMostSimilar` return `none`, because
the running maximum starts at −1 and is only replaced by a strictly
greater similarity — contradicting the claim that any differing-label
candidate yields a non-null result. -/
theorem c2_counterexample :
    findMostSimilar "t" [1, 0] [⟨"1", "c", [-1, 0], ""⟩] = .ok none := by
  have hcos : cosineSimilarity [1, 0] [(-1 : ℝ), 0] = .ok (-1) := by
    have hA : magnitude ([1, 0] : Vec) = 1 := by
      norm_num [magnitude, sumSq]
    have hB : magnitude ([(-1 : ℝ), 0] : Vec) = 1 := by
      norm_num [magnitude, sumSq]
    unfold cosineSimilarity
    rw [if_neg (by simp), if_neg (by rw [hA, hB]; norm_num)]
    rw [hA, hB]
    norm_num [dotFold]
  unfold findMostSimilar
  rw [if_neg (by simp)]
  unfold mostSimilarGo
  rw [if_pos (by decide : ((⟨"1", "c", [-1, 0], ""⟩ : EmbeddingData).sentence ≠ "t"))]
  show (match cosineSimilarity [1, 0] [(-1 : ℝ), 0] with
    | .error e => Except.error e
    | .ok sim =>
      if sim > -1 then mostSimilarGo "t" [1, 0] [] sim "c"
      else mostSimilarGo "t" [1, 0] [] (-1) "") = .ok none
  rw [hcos]
  show (if (-1 : ℝ) > -1 then mostSimilarGo "t" [1, 0] [] (-1) "c"
    else mostSimilarGo "t" [1, 0] [] (-1) "") = .ok none
  rw [if_neg (by norm_num)]
  unfold mostSimilarGo
  rw [if_neg (by norm_num : ¬((-1 : ℝ) > -1))]

/-- C2 (amended): under equal-length embeddings, `findMostSimilar` never
throws; it returns `none` exactly when every candidate whose label
differs from the target has cosine similarity ≤ −1 to it (in particular
when the candidate set is empty or all labels coincide with the
target's); and any non-null result is a differing-label candidate of
maximal cosine similarity among the differing-label candidates. -/
theorem c2_amended_most_similar (ts : String) (te : Vec)
    (candidates : List EmbeddingData)
    (hlen : ∀ c ∈ candidates, c.embedding.length = te.length) :
    ∃ r, findMostSimilar ts te candidates = .ok r ∧
      (r = none ↔ ∀ c ∈ candidates, c.sentence ≠ ts → simVal te c.embedding ≤ -1) ∧
      ∀ s, r = some s →
        ∃ c ∈ candidates, c.sentence ≠ ts ∧ c.sentence = s.sentence ∧
          simVal te c.embedding = s.similarity ∧
          ∀ x ∈ candidates, x.sentence ≠ ts →
            simVal te x.embedding ≤ s.similarity := by
  by_cases h0 : candidates.length = 0
  · have hnil : candidates = [] := List.length_eq_zero.mp h0
    subst hnil
    refine ⟨none, by simp [findMostSimilar], by simp, by simp⟩
  · obtain ⟨h1, h2, h3⟩ := foldl_simStep_spec ts te candidates (-1) ""
    have hrun := mostSimilarGo_eq_ok ts te candidates (-1) "" hlen
    by_cases hgt : (candidates.foldl (simStep ts te) (-1, "")).1 > -1
    · refine ⟨some ⟨(candidates.foldl (simStep ts te) (-1, "")).2,
        (candidates.foldl (simStep ts te) (-1, "")).1⟩,
        by rw [findMostSimilar, if_neg h0, hrun, if_pos hgt], ?_, ?_⟩
      · constructor
        · intro hcontra
          exact absurd hcontra (by simp)
        · intro hall
          exfalso
          rcases h2 with ⟨he1, _⟩ | ⟨c, hcmem, hcne, hcv, _⟩
          · rw [he1] at hgt
            exact lt_irrefl _ hgt
          · exact absurd hgt (not_lt.mpr (hcv ▸ hall c hcmem hcne))
      · intro s hs
        have hseq := Option.some.inj hs
        rcases h2 with ⟨he1, _⟩ | ⟨c, hcmem, hcne, hcv, hcs⟩
        · rw [he1] at hgt
          exact absurd hgt (lt_irrefl _)
        · refine ⟨c, hcmem, hcne, ?_, ?_, ?_⟩
          · rw [hcs, ← hseq]
          · rw [hcv, ← hseq]
          · intro x hx hxne
            rw [← hseq]
            exact h3 x hx hxne
    · have hr1 : (candidates.foldl (simStep ts te) (-1, "")).1 = -1 :=
        le_antisymm (not_lt.mp hgt) h1
      refine ⟨none, by rw [findMostSimilar, if_neg h0, hrun, if_neg hgt], ?_,
        by simp⟩
      constructor
      · intro _ c hcmem hcne
        have := h3 c hcmem hcne
        rwa [hr1] at this
      · intro _
        rfl

/-- C2 (witness): the amended characterisation applied to a single
differing-label candidate of similarity 1 (which is therefore returned). -/
theorem c2_witness :
    (∀ c ∈ ([⟨"1", "c", [1, 0], ""⟩] : List EmbeddingData),
      c.embedding.length = ([1, 0] : Vec).length) ∧
    (∃ r, findMostSimilar "t" [1, 0] [⟨"1", "c", [1, 0], ""⟩] = .ok r ∧
      (r = none ↔ ∀ c ∈ ([⟨"1", "c", [1, 0], ""⟩] : List EmbeddingData),
        c.sentence ≠ "t" → simVal [1, 0] c.embedding ≤ -1) ∧
      ∀ s, r = some s →
        ∃ c ∈ ([⟨"1", "c", [1, 0], ""⟩] : List EmbeddingData),
          c.sentence ≠ "t" ∧ c.sentence = s.sentence ∧
          simVal [1, 0] c.embedding = s.similarity ∧
          ∀ x ∈ ([⟨"1", "c", [1, 0], ""⟩] : List EmbeddingData),
            x.sentence ≠ "t" → simVal [1, 0] x.embedding ≤ s.similarity) :=
  ⟨by simp, c2_amended_most_similar "t" [1, 0] [⟨"1", "c", [1, 0], ""⟩] (by simp)⟩

/-- C5 (confirmed): on 4 points forming a perfect 2×2 grid (the four
corners of `{a, b} × {c, d}` with `a < b`, `c < d`, in any order), the
clusterer produces exactly 4 clusters with exactly 1 member each; the
medians are the upper values `b`, `d` and the points lying on them are
assigned to the "≥" side on both axes. -/
theorem c5_grid_four_clusters (a b c d : ℝ) (hab : a < b) (hcd : c < d)
    (p1 p2 p3 p4 : Point) (pts : List Point)
    (h1x : p1.x = a) (h1y : p1.y = c) (h2x : p2.x = a) (h2y : p2.y = d)
    (h3x : p3.x = b) (h3y : p3.y = c) (h4x : p4.x = b) (h4y : p4.y = d)
    (hperm : List.Perm pts [p1, p2, p3, p4]) :
    (performSimpleClustering pts).length = 4 ∧
    ∀ cl ∈ performSimpleClustering pts, cl.sentences.length = 1 := by
  have hlen : pts.length = 4 := by rw [hperm.length_eq]; rfl
  have hnot : ¬ (pts.length < 2) := by omega
  have hpx : List.Perm (pts.map Point.x) [a, a, b, b] := by
    have h := hperm.map Point.x
    rw [List.map_cons, List.map_cons, List.map_cons, List.map_cons, List.map_nil,
      h1x, h2x, h3x, h4x] at h
    exact h
  have hpy : List.Perm (pts.map Point.y) [c, c, d, d] := by
    have h := hperm.map Point.y
    rw [List.map_cons, List.map_cons, List.map_cons, List.map_cons, List.map_nil,
      h1y, h2y, h3y, h4y] at h
    exact h.trans (List.Perm.cons c (List.Perm.swap c d [d]))
  have hsx : List.insertionSort (· ≤ ·) (pts.map Point.x) = [a, a, b, b] := by
    apply List.eq_of_perm_of_sorted ((List.perm_insertionSort _ _).trans hpx)
      (List.sorted_insertionSort _ _)
    simp [List.sorted_cons, hab.le]
  have hsy : List.insertionSort (· ≤ ·) (pts.map Point.y) = [c, c, d, d] := by
    apply List.eq_of_perm_of_sorted ((List.perm_insertionSort _ _).trans hpy)
      (List.sorted_insertionSort _ _)
    simp [List.sorted_cons, hcd.le]
  have hmx : (List.insertionSort (· ≤ ·) (pts.map Point.x)).getD (pts.length / 2) 0
      = b := by
    rw [hsx, hlen]
    rfl
  have hmy : (List.insertionSort (· ≤ ·) (pts.map Point.y)).getD (pts.length / 2) 0
      = d := by
    rw [hsy, hlen]
    rfl
  rw [performSimpleClustering_eq pts hnot, hmx, hmy]
  have hq1 : quadIndex b d p1 = 3 := by
    simp [quadIndex, h1x, h1y, not_le.mpr hab, not_le.mpr hcd, hab, hcd]
  have hq2 : quadIndex b d p2 = 1 := by
    simp [quadIndex, h2x, h2y, not_le.mpr hab, hab]
  have hq3 : quadIndex b d p3 = 2 := by
    simp [quadIndex, h3x, h3y, not_le.mpr hcd, hcd]
  have hq4 : quadIndex b d p4 = 0 := by
    simp [quadIndex, h4x, h4y]
  have hflen : ∀ i : Fin 4, (pts.filter fun p => quadIndex b d p = i).length = 1 := by
    intro i
    rw [← List.countP_eq_length_filter, hperm.countP_eq]
    fin_cases i <;>
      simp [List.countP_cons, hq1, hq2, hq3, hq4]
  have hsome : ∀ q ∈ quadrantNames, (emitCluster b d pts q).isSome := by
    intro q _
    simp [emitCluster, hflen q.1]
  constructor
  · rw [filterMap_length_all_isSome _ _ hsome]
    rfl
  · intro cl hcl
    obtain ⟨q, _, hemit⟩ := List.mem_filterMap.mp hcl
    have hfl := hflen q.1
    simp only [emitCluster, hfl, Nat.lt_irrefl, Nat.zero_lt_one, if_true,
      Option.some.injEq] at hemit
    rw [← hemit]
    simp [hfl]

/-- C5 (witness): the grid theorem at the concrete unit grid
`(0,0), (0,1), (1,0), (1,1)`. -/
theorem c5_witness :
    ((0 : ℝ) < 1 ∧ (0 : ℝ) < 1) ∧
    ((performSimpleClustering
        [⟨0, 0, none, "l1", "1"⟩, ⟨0, 1, none, "l2", "2"⟩,
         ⟨1, 0, none, "l3", "3"⟩, ⟨1, 1, none, "l4", "4"⟩]).length = 4 ∧
      ∀ cl ∈ performSimpleClustering
        [⟨0, 0, none, "l1", "1"⟩, ⟨0, 1, none, "l2", "2"⟩,
         ⟨1, 0, none, "l3", "3"⟩, ⟨1, 1, none, "l4", "4"⟩],
        cl.sentences.length = 1) :=
  ⟨⟨zero_lt_one, zero_lt_one⟩,
   c5_grid_four_clusters 0 1 0 1 zero_lt_one zero_lt_one
     ⟨0, 0, none, "l1", "1"⟩ ⟨0, 1, none, "l2", "2"⟩
     ⟨1, 0, none, "l3", "3"⟩ ⟨1, 1, none, "l4", "4"⟩ _
     rfl rfl rfl rfl rfl rfl rfl rfl (List.Perm.refl _)⟩

/-- C10 (confirmed): for at least 2 points with pairwise distinct labels,
the clusters partition the input: the concatenation of the member lists
is a permutation of the input labels, the member lists are pairwise
disjoint, and every emitted cluster is non-empty. -/
theorem c10_cluster_partition (pts : List Point) (h2 : 2 ≤ pts.length)
    (hnd : (pts.map Point.label).Nodup) :
    ((performSimpleClustering pts).map Cluster.sentences).flatten.Perm
      (pts.map Point.label) ∧
    ((performSimpleClustering pts).map Cluster.sentences).Pairwise List.Disjoint ∧
    ∀ cl ∈ performSimpleClustering pts, cl.sentences ≠ [] := by
  have hnot : ¬ (pts.length < 2) := by omega
  rw [performSimpleClustering_eq pts hnot]
  generalize (List.insertionSort (· ≤ ·) (pts.map Point.x)).getD (pts.length / 2) 0
    = mx
  generalize (List.insertionSort (· ≤ ·) (pts.map Point.y)).getD (pts.length / 2) 0
    = my
  have hflat : ((quadrantNames.filterMap (emitCluster mx my pts)).map
      Cluster.sentences).flatten.Perm (pts.map Point.label) := by
    rw [emit_filterMap_flatten]
    have hjoin : (quadrantNames.map fun q =>
        (pts.filter fun p => quadIndex mx my p = q.1).map Point.label).flatten =
        ((pts.filter fun p => quadIndex mx my p = 0) ++
         (pts.filter fun p => quadIndex mx my p = 1) ++
         (pts.filter fun p => quadIndex mx my p = 2) ++
         (pts.filter fun p => quadIndex mx my p = 3)).map Point.label := by
      simp [quadrantNames, List.map_append, List.append_assoc]
    rw [hjoin]
    exact (quadFilter_perm mx my pts).map Point.label
  refine ⟨hflat, ?_, ?_⟩
  · have hnodup : (((quadrantNames.filterMap (emitCluster mx my pts)).map
        Cluster.sentences).flatten).Nodup := hflat.nodup_iff.mpr hnd
    exact (List.nodup_flatten.mp hnodup).2
  · intro cl hcl
    obtain ⟨q, _, hemit⟩ := List.mem_filterMap.mp hcl
    by_cases hpos : 0 < (pts.filter fun p => quadIndex mx my p = q.1).length
    · simp only [emitCluster, if_pos hpos, Option.some.injEq] at hemit
      rw [← hemit]
      intro hc
      rw [List.map_eq_nil_iff] at hc
      rw [hc] at hpos
      exact Nat.lt_irrefl 0 hpos
    · simp [emitCluster, hpos] at hemit

/-- C10 (witness): the partition invariant at 2 concrete labelled
points. -/
theorem c10_witness :
    (2 ≤ ([⟨0, 0, none, "s1", "1"⟩, ⟨1, 1, none, "s2", "2"⟩] : List Point).length ∧
      (([⟨0, 0, none, "s1", "1"⟩, ⟨1, 1, none, "s2", "2"⟩] : List Point).map
        Point.label).Nodup) ∧
    (((performSimpleClustering
        [⟨0, 0, none, "s1", "1"⟩, ⟨1, 1, none, "s2", "2"⟩]).map
        Cluster.sentences).flatten.Perm
      (([⟨0, 0, none, "s1", "1"⟩, ⟨1, 1, none, "s2", "2"⟩] : List Point).map
        Point.label) ∧
     ((performSimpleClustering
        [⟨0, 0, none, "s1", "1"⟩, ⟨1, 1, none, "s2", "2"⟩]).map
        Cluster.sentences).Pairwise List.Disjoint ∧
     ∀ cl ∈ performSimpleClustering
        [⟨0, 0, none, "s1", "1"⟩, ⟨1, 1, none, "s2", "2"⟩],
       cl.sentences ≠ []) :=
  ⟨⟨by simp, by simp⟩,
   c10_cluster_partition [⟨0, 0, none, "s1", "1"⟩, ⟨1, 1, none, "s2", "2"⟩]
     (by simp) (by simp)⟩

/-- C3 (counterexample): an analysis run with target dimensionality 3
(configuration `cfgC3`, a successful 3D PCA reduction) produces two
clusters whose centroids have 2 coordinates, not 3 — the clusterer only
ever averages x and y, so the centroid does not match the reduced
dimensionality when k = 3. -/
theorem c3_counterexample :
    cfgC3.dimensions.nat = 3 ∧
    (reduceDimensions pcaLibC3 tsneLib0 rand0 rand0 dataC3 cfgC3).toOption.map
      (fun r => r.clusters.map fun cl => cl.centroid.length) = some [2, 2] := by
  refine ⟨rfl, ?_⟩
  rw [reduceDimensionsC3_eval]
  rfl

/-- C3 (amended): in every successful analysis run, every cluster's
centroid has exactly 2 coordinates — matching the reduced dimensionality
only when k = 2 (for k = 3 the third coordinate is ignored by the
clusterer). -/
theorem c3_amended_centroid_always_pair (pl : PCALib) (tl : TSNELib)
    (rp rt : ℕ → ℝ) (data : List EmbeddingData) (config : VisualizationConfig)
    (r : ProcessedEmbeddings)
    (h : reduceDimensions pl tl rp rt data config = Except.ok r) :
    ∀ cl ∈ r.clusters, cl.centroid.length = 2 := by
  simp only [reduceDimensions] at h
  split at h
  · exact absurd h (by simp)
  · split at h
    · exact absurd h (by simp)
    · rw [← Except.ok.inj h]
      exact centroid_length_two _

/-- C3 (witness): the amended theorem applied to the concrete k = 3 run,
whose two clusters both carry a 2-entry centroid. -/
theorem c3_witness :
    (reduceDimensions pcaLibC3 tsneLib0 rand0 rand0 dataC3 cfgC3 =
      Except.ok procC3) ∧
    ∀ cl ∈ procC3.clusters, cl.centroid.length = 2 :=
  ⟨reduceDimensionsC3_eval,
   c3_amended_centroid_always_pair pcaLibC3 tsneLib0 rand0 rand0 dataC3 cfgC3
     procC3 reduceDimensionsC3_eval⟩

end

end VELearning
